import Mathlib

/-
  Verification of the dex-services naive solver (driver/src/price_finding/naive_solver.rs)
  and the event-updating orderbook (driver/src/orderbook/streamed/updating_orderbook.rs).

  Conventions of the shallow embedding:
  * Rust u128 / u16 values are Nat; u128 arithmetic that can overflow is reduced
    modulo 2^128 exactly where the source performs native u128 operations
    (release-mode wrapping semantics).  All U256 arithmetic in the source acts on
    values below 2^128, so products are exact; where the source converts a U256
    back with as_u128 (which panics above u128::MAX), multiplies two U256 values
    (which panics on overflow) or divides by a U256 zero (which panics), the
    embedding returns none.
  * Fallible computations return Option; for the solver pipeline, none models a
    panic of the Rust code and some s models Ok(s).
-/

namespace DexServices

/-- Modulus of the Rust u128 integer type. -/
def U128_MOD : Nat := 2 ^ 128

/-- Modulus of the ethcontract U256 integer type. -/
def U256_MOD : Nat := 2 ^ 256

/-- Constant BASE_UNIT = 10^18 from naive_solver.rs. -/
def BASE_UNIT : Nat := 1000000000000000000

/-- Constant BASE_PRICE = BASE_UNIT from naive_solver.rs. -/
def BASE_PRICE : Nat := BASE_UNIT

/-- Modelled from the spec: the CeiledDiv trait of the repository's util module
    (not under src/); the spec describes it as exact ceiling division, e.g.
    step 4 of the matcher: every price becomes ceil(price * BASE_PRICE / f). -/
def ceiled_div (a b : Nat) : Nat := a / b + if a % b = 0 then 0 else 1

/-- Wrapping u128 decrement: the Rust expression fee_denominator - 1 on u128
    (wraps to 2^128 - 1 when the operand is 0, release-mode semantics). -/
def u128_sub_one (d : Nat) : Nat := (d + (U128_MOD - 1)) % U128_MOD

/-- models/order.rs is not under src/; the Order struct is modelled from the
    spec's data model and its uses in naive_solver.rs: account id (owner
    address), order id, buy and sell token ids, buy and sell amounts (u128). -/
structure Order where
  account_id : Nat
  id : Nat
  buy_token : Nat
  sell_token : Nat
  buy_amount : Nat
  sell_amount : Nat
deriving DecidableEq, Repr

/-- Modelled from the spec: the Fee struct of the missing
    price_finder_interface.rs has a token id and an f64 ratio.  Per the spec's
    design note the ratio is converted once to the integer fee denominator
    D = (1.0 / ratio) as u128 (1000 for the ratio 0.001, the only value used in
    practice); the embedding carries that integer directly. -/
structure Fee where
  token : Nat
  fee_denominator : Nat
deriving DecidableEq, Repr

/-- models/account_state.rs: AccountState maps (account, token) to a u128
    balance, absent entries reading as 0; read_balance takes the token id first
    like the Rust method. -/
structure AccountState where
  read_balance : Nat → Nat → Nat

/-- models/solution.rs is not under src/; ExecutedOrder is modelled from the
    spec's solution executions and its construction in naive_solver.rs. -/
structure ExecutedOrder where
  account_id : Nat
  order_id : Nat
  buy_amount : Nat
  sell_amount : Nat
deriving DecidableEq, Repr

/-- The PriceMap (HashMap of token id to u128 price) as an association list
    with unique keys. -/
abbrev PriceMap := List (Nat × Nat)

/-- HashMap::insert: replace the value at the key if present, else add the
    entry. -/
def price_insert : PriceMap → Nat → Nat → PriceMap
  | [], k, v => [(k, v)]
  | (k0, v0) :: rest, k, v =>
    if k0 = k then (k, v) :: rest else (k0, v0) :: price_insert rest k v

/-- HashMap::get on the price map. -/
def price_get : PriceMap → Nat → Option Nat
  | [], _ => none
  | (k0, v0) :: rest, k => if k0 = k then some v0 else price_get rest k

/-- models/solution.rs is not under src/; Solution is modelled from the spec:
    a price vector and the executed orders. -/
structure Solution where
  prices : PriceMap
  executed_orders : List ExecutedOrder
deriving DecidableEq, Repr

/-- Modelled from the spec: the trivial solution has empty prices and empty
    executions. -/
def Solution.trivial : Solution := ⟨[], []⟩

/-- Matchable::sufficient_seller_funds. -/
def sufficient_seller_funds (o : Order) (state : AccountState) : Bool :=
  decide (o.sell_amount ≤ state.read_balance o.sell_token o.account_id)

/-- Matchable::opposite_tokens. -/
def opposite_tokens (x y : Order) : Bool :=
  decide (x.buy_token = y.sell_token ∧ x.sell_token = y.buy_token)

/-- Matchable::have_price_overlap; the two products are computed in U256 on
    u128 operands, hence exactly. -/
def have_price_overlap (x y : Order) : Bool :=
  decide (0 < x.sell_amount ∧ 0 < y.sell_amount ∧
    x.buy_amount * y.buy_amount ≤ y.sell_amount * x.sell_amount)

/-- Matchable::trades_fee_token. -/
def trades_fee_token (o : Order) (f : Fee) : Bool :=
  decide (o.buy_token = f.token ∨ o.sell_token = f.token)

/-- Matchable::attracts: orders that do not touch the fee token cannot be
    matched; otherwise the tokens must be opposite and the prices overlap. -/
def attracts (x y : Order) (fee : Option Fee) : Bool :=
  match fee with
  | some f => if ¬ (x.sell_token = f.token ∨ x.buy_token = f.token) then false
              else opposite_tokens x y && have_price_overlap x y
  | none => opposite_tokens x y && have_price_overlap x y

/-- The OrderPairType enum. -/
inductive OrderPairType where
  | lhsFullyFilled
  | rhsFullyFilled
  | bothFullyFilled
deriving DecidableEq, Repr

/-- Matchable::match_compare. -/
def match_compare (x y : Order) (state : AccountState) (fee : Option Fee) :
    Option OrderPairType :=
  if ¬ (sufficient_seller_funds x state = true) ∨
     ¬ (sufficient_seller_funds y state = true) ∨
     ¬ (attracts x y fee = true) ∨
     ¬ ((fee.map (trades_fee_token x)).getD true = true) then
    none
  else if x.buy_amount ≤ y.sell_amount ∧ x.sell_amount ≤ y.buy_amount then
    some .lhsFullyFilled
  else if y.sell_amount ≤ x.buy_amount ∧ y.buy_amount ≤ x.sell_amount then
    some .rhsFullyFilled
  else
    some .bothFullyFilled

/-- The Match struct: the pair type together with the two matched orders
    (orders[0] and orders[1]). -/
structure MatchPair where
  order_pair_type : OrderPairType
  fst : Order
  snd : Order
deriving DecidableEq, Repr

/-- Inner loop of find_first_match: scan the orders after x for the first y
    that matches x. -/
def find_first_match_from (x : Order) (state : AccountState) (fee : Option Fee) :
    List Order → Option MatchPair
  | [] => none
  | y :: rest =>
    match match_compare x y state fee with
    | some t => some ⟨t, x, y⟩
    | none => find_first_match_from x state fee rest

/-- find_first_match: iterate all ordered pairs (x before y) and return the
    first match. -/
def find_first_match (orders : List Order) (state : AccountState)
    (fee : Option Fee) : Option MatchPair :=
  match orders with
  | [] => none
  | x :: rest =>
    match find_first_match_from x state fee rest with
    | some m => some m
    | none => find_first_match rest state fee

/-- order_with_buffer_for_fee.  The multiplications are native u128 and wrap;
    the division by fee_denominator in the sell branch is native u128 division
    and panics (none) on a zero denominator. -/
def order_with_buffer_for_fee (order : Order) (fee : Option Fee) : Option Order :=
  match fee with
  | some f =>
    let d := f.fee_denominator
    if f.token = order.buy_token then
      some { order with
        buy_amount := ceiled_div (order.buy_amount * d % U128_MOD) (u128_sub_one d) }
    else if f.token = order.sell_token then
      if d = 0 then none
      else some { order with
        sell_amount := order.sell_amount * u128_sub_one d % U128_MOD / d }
    else some order
  | none => some order

/-- The local helper create_executed_order of create_executed_orders. -/
def create_executed_order (o : Order) (sell_amount buy_amount : Nat) :
    ExecutedOrder :=
  ⟨o.account_id, o.id, buy_amount, sell_amount⟩

/-- The match statement of create_executed_orders on the (already buffered)
    order pair: the executed order pair and the price map per pair type
    (the step-3 table of the spec). -/
def exec_table (t : OrderPairType) (x y : Order) :
    (ExecutedOrder × ExecutedOrder) × PriceMap :=
  match t with
  | .lhsFullyFilled =>
    ((create_executed_order x x.sell_amount x.buy_amount,
      create_executed_order y x.buy_amount x.sell_amount),
     price_insert (price_insert [] x.buy_token x.sell_amount)
       y.buy_token x.buy_amount)
  | .rhsFullyFilled =>
    ((create_executed_order x y.buy_amount y.sell_amount,
      create_executed_order y y.sell_amount y.buy_amount),
     price_insert (price_insert [] x.sell_token y.sell_amount)
       y.sell_token y.buy_amount)
  | .bothFullyFilled =>
    ((create_executed_order x x.sell_amount y.sell_amount,
      create_executed_order y y.sell_amount x.sell_amount),
     price_insert (price_insert [] y.buy_token y.sell_amount)
       x.buy_token x.sell_amount)

/-- create_executed_orders: buffer both matched orders for the fee, then build
    the executed order pair and the price map according to the pair type. -/
def create_executed_orders (m : MatchPair) (fee : Option Fee) :
    Option ((ExecutedOrder × ExecutedOrder) × PriceMap) :=
  match order_with_buffer_for_fee m.fst fee, order_with_buffer_for_fee m.snd fee with
  | some x, some y => some (exec_table m.order_pair_type x y)
  | _, _ => none

/-- executed_sell_amount: (((eb * pb) / (D - 1)) * D) / ps computed in U256,
    then as_u128.  none models the Rust panics: U256 overflow on a
    multiplication, division by a zero U256, or as_u128 on a value above
    u128::MAX. -/
def executed_sell_amount (f : Fee) (exec_buy_amt buy_price sell_price : Nat) :
    Option Nat :=
  let dm1 := u128_sub_one f.fee_denominator
  if U256_MOD ≤ exec_buy_amt * buy_price then none
  else if dm1 = 0 then none
  else
    let q := exec_buy_amt * buy_price / dm1
    if U256_MOD ≤ q * f.fee_denominator then none
    else if sell_price = 0 then none
    else
      let r := q * f.fee_denominator / sell_price
      if r < U128_MOD then some r else none

/-- executed_buy_amount: the candidate (((es * sp) / D) * (D - 1)).ceiled_div bp
    as u128, returned only when executed_sell_amount round-trips back to the
    given executed sell amount.  The outer Option models the Rust panics, the
    inner Option is the Rust return value. -/
def executed_buy_amount (f : Fee) (exec_sell_amt buy_price sell_price : Nat) :
    Option (Option Nat) :=
  let d := f.fee_denominator
  if U256_MOD ≤ exec_sell_amt * sell_price then none
  else if d = 0 then none
  else
    let q := exec_sell_amt * sell_price / d
    if U256_MOD ≤ q * u128_sub_one d then none
    else
      let c := ceiled_div (q * u128_sub_one d) buy_price
      if U128_MOD ≤ c then none
      else
        match executed_sell_amount f c buy_price sell_price with
        | none => none
        | some rt => some (if exec_sell_amt = rt then some c else none)

/-- normalize_price: ceil(price * BASE_PRICE / pre_normalized_fee_price) in
    U256 (exact, operands are u128), converted back with the checked
    as_u128_checked (none on overflow, per the spec: any price overflowing u128
    makes the caller return the trivial solution). -/
def normalize_price (price pre_normalized_fee_price : Nat) : Option Nat :=
  let v := ceiled_div (price * BASE_PRICE) pre_normalized_fee_price
  if v < U128_MOD then some v else none

/-- The price-normalization loop of create_solution_with_fee over all stored
    prices; none when any one of them overflows. -/
def normalize_prices : PriceMap → Nat → Option PriceMap
  | [], _ => some []
  | (k, v) :: rest, f =>
    match normalize_price v f, normalize_prices rest f with
    | some v2, some rest2 => some ((k, v2) :: rest2)
    | _, _ => none

/-- One iteration of the fee application loop of create_solution_with_fee:
    for an order selling the fee token recompute its executed sell amount,
    otherwise recompute its executed buy amount.  Outer none models a panic
    (indexing a missing price or a panic of the amount functions); some none
    models the executed-buy-amount-not-found case, on which the caller returns
    the trivial solution. -/
def apply_fee_to_executed_order (f : Fee) (prices : PriceMap) (order : Order)
    (executed_order : ExecutedOrder) : Option (Option ExecutedOrder) :=
  if order.sell_token = f.token then
    match price_get prices order.buy_token with
    | none => none
    | some price_buy =>
      match executed_sell_amount f executed_order.buy_amount price_buy BASE_PRICE with
      | none => none
      | some es => some (some { executed_order with sell_amount := es })
  else
    match price_get prices order.sell_token with
    | none => none
    | some price_sell =>
      match executed_buy_amount f executed_order.sell_amount BASE_PRICE price_sell with
      | none => none
      | some none => some none
      | some (some eb) => some (some { executed_order with buy_amount := eb })

/-- create_solution_with_fee on the matched order pair (ox, oy), their executed
    orders and the raw price map: normalize prices so the fee token price is
    BASE_PRICE (trivial solution when the raw fee price is 0 or missing, or
    when a normalized price overflows), then apply the fee to both executed
    orders in order. -/
def create_solution_with_fee (ox oy : Order) (f : Fee) (e0 e1 : ExecutedOrder)
    (prices : PriceMap) : Option Solution :=
  let pre := (price_get prices f.token).getD 0
  if pre = 0 then some Solution.trivial
  else
    match normalize_prices prices pre with
    | none => some Solution.trivial
    | some nprices =>
      match apply_fee_to_executed_order f nprices ox e0 with
      | none => none
      | some none => some Solution.trivial
      | some (some e0f) =>
        match apply_fee_to_executed_order f nprices oy e1 with
        | none => none
        | some none => some Solution.trivial
        | some (some e1f) => some ⟨nprices, [e0f, e1f]⟩

/-- PriceFinding::find_prices of NaiveSolver.  some s models Ok(s); none models
    a panic of the Rust code (the function has no Err return of its own). -/
def find_prices (orders : List Order) (state : AccountState) (fee : Option Fee) :
    Option Solution :=
  match find_first_match orders state fee with
  | some m =>
    match create_executed_orders m fee with
    | none => none
    | some ((e0, e1), prices) =>
      match fee with
      | some f => create_solution_with_fee m.fst m.snd f e0 e1 prices
      | none => some ⟨prices, [e0, e1]⟩
  | none => some Solution.trivial

/-- The tail of find_prices after a successful match: build the executed
    orders and, with a fee, run them through create_solution_with_fee. -/
def execute_match (m : MatchPair) (fee : Option Fee) : Option Solution :=
  match create_executed_orders m fee with
  | none => none
  | some ((e0, e1), prices) =>
    match fee with
    | some f => create_solution_with_fee m.fst m.snd f e0 e1 prices
    | none => some ⟨prices, [e0, e1]⟩

/-- The classification performed by the tail of match_compare, as a function of
    the two (unbuffered) matched orders. -/
def classify_pair (x y : Order) : OrderPairType :=
  if x.buy_amount ≤ y.sell_amount ∧ x.sell_amount ≤ y.buy_amount then
    .lhsFullyFilled
  else if y.sell_amount ≤ x.buy_amount ∧ y.buy_amount ≤ x.sell_amount then
    .rhsFullyFilled
  else
    .bothFullyFilled

/-- Claim C4, following the claim's words: both orders have sufficient seller
    funds, the buy and sell tokens are opposite, the prices overlap, and with a
    configured fee the first order touches the fee token. -/
def c4_matchable (state : AccountState) (fee : Option Fee) (x y : Order) : Bool :=
  sufficient_seller_funds x state && sufficient_seller_funds y state &&
  (x.buy_token == y.sell_token) && (x.sell_token == y.buy_token) &&
  have_price_overlap x y &&
  (match fee with
   | some f => (x.buy_token == f.token) || (x.sell_token == f.token)
   | none => true)

/-- Claim C4: the first y after x (in slice order) for which p x y holds. -/
def first_from (p : Order → Order → Bool) (x : Order) : List Order → Option Order
  | [] => none
  | y :: rest => if p x y then some y else first_from p x rest

/-- Claim C4: the first ordered pair (x, y), x preceding y in the slice, for
    which p x y holds. -/
def first_matching_pair (p : Order → Order → Bool) : List Order → Option (Order × Order)
  | [] => none
  | x :: rest =>
    match first_from p x rest with
    | some y => some (x, y)
    | none => first_matching_pair p rest

/-- Claim C5, following the claim's words: classification over the (buffered)
    pair with LhsFull iff x.buy ≤ y.sell and x.sell ≤ y.buy, RhsFull iff
    x.buy > y.sell and x.sell > y.buy, BothFull otherwise. -/
def claim_c5_classify (x y : Order) : OrderPairType :=
  if x.buy_amount ≤ y.sell_amount ∧ x.sell_amount ≤ y.buy_amount then
    .lhsFullyFilled
  else if y.sell_amount < x.buy_amount ∧ y.buy_amount < x.sell_amount then
    .rhsFullyFilled
  else
    .bothFullyFilled

/-- Claim C6, following the claim's words: the candidate executed buy amount of
    executed_buy_amount before the round-trip check. -/
def executed_buy_amount_candidate (f : Fee) (exec_sell_amt buy_price sell_price : Nat) :
    Nat :=
  ceiled_div (exec_sell_amt * sell_price / f.fee_denominator *
    u128_sub_one f.fee_denominator) buy_price

/-- Sum of the executed buy amounts over the executed orders whose originating
    order buys token t (each executed order paired with its matched order). -/
def token_buy_total (l : List (Order × ExecutedOrder)) (t : Nat) : Nat :=
  (l.map (fun p => if p.1.buy_token = t then p.2.buy_amount else 0)).sum

/-- Sum of the executed sell amounts over the executed orders whose originating
    order sells token t. -/
def token_sell_total (l : List (Order × ExecutedOrder)) (t : Nat) : Nat :=
  (l.map (fun p => if p.1.sell_token = t then p.2.sell_amount else 0)).sum

/-
  Model of orderbook/streamed/updating_orderbook.rs.  The interleaving of the
  background update task and readers is modelled by a step relation on the
  state protected by the orderbook mutex plus the ready flag; the inner
  streamed Orderbook (not under src/) is abstracted by the list of events
  applied to it, in application order, and its get_auction_data result is an
  abstract function of that list.
-/

/-- State owned by the UpdatingOrderbook: the events applied to the inner
    orderbook so far (in order), the ready flag, and the not-yet-consumed
    past-events future. -/
structure UpdaterState where
  applied : List Nat
  ready : Bool
  past_pending : Option (List Nat)
deriving DecidableEq, Repr

/-- Initial state of UpdatingOrderbook::new: empty orderbook, ready flag
    unset, past events fetched but not applied. -/
def updater_init (past : List Nat) : UpdaterState := ⟨[], false, some past⟩

/-- One iteration of the select loop of update_with_events_forever that
    changes the state: either a live stream event is applied, or the
    past-events future completes, all past events are applied in order and
    only then the ready flag is stored.  (The exit and error branches stop the
    task without any state change, so they need no step.) -/
inductive UpdaterStep : UpdaterState → UpdaterState → Prop where
  | live (s : UpdaterState) (e : Nat) :
      UpdaterStep s ⟨s.applied ++ [e], s.ready, s.past_pending⟩
  | past (s : UpdaterState) (evs : List Nat) (h : s.past_pending = some evs) :
      UpdaterStep s ⟨s.applied ++ evs, true, none⟩

/-- Reachability of updater states. -/
def UpdaterReachable (s t : UpdaterState) : Prop :=
  Relation.ReflTransGen UpdaterStep s t

/-- Result of UpdatingOrderbook::get_auction_data: the not-ready error or the
    inner orderbook's result. -/
inductive AuctionDataResult (α : Type) where
  | notReady
  | ok (value : α)
deriving DecidableEq, Repr

/-- UpdatingOrderbook::get_auction_data: fail unless the ready flag is set,
    then return the inner orderbook's result (an abstract function of the
    applied events and the queried batch). -/
def updating_get_auction_data {α : Type} (inner : List Nat → Nat → α)
    (s : UpdaterState) (batch : Nat) : AuctionDataResult α :=
  if s.ready then .ok (inner s.applied batch) else .notReady

/-
  Concrete instances used by counterexamples and witnesses.
-/

/-- An account state holding exactly two balances. -/
def balances2 (a0 t0 b0 a1 t1 b1 : Nat) : AccountState :=
  ⟨fun t a =>
    if a = a0 ∧ t = t0 then b0 else if a = a1 ∧ t = t1 then b1 else 0⟩

/-- The production fee configuration: fee token 0, ratio 0.001, denominator
    1000. -/
def prodFee : Fee := ⟨0, 1000⟩

/-- Oversell counterexample, order 0: sells 1000 of the fee token 0, wants
    3 * 10^38 of token 1. -/
def c1x : Order := ⟨0, 0, 1, 0, 300000000000000000000000000000000000000, 1000⟩

/-- Oversell counterexample, order 1: sells 3.3 * 10^38 of token 1, wants 1000
    of the fee token 0. -/
def c1y : Order := ⟨1, 0, 0, 1, 1000, 330000000000000000000000000000000000000⟩

/-- Balances sufficient for both oversell counterexample orders. -/
def c1state : AccountState :=
  balances2 0 0 1000 1 1 330000000000000000000000000000000000000

/-- The solution the solver returns on the oversell counterexample. -/
def c1sol : Solution :=
  ⟨[(1, 1), (0, 1000000000000000000)],
   [⟨0, 0, 300000000000000000000000000000000000000, 300300300300300300300⟩,
    ⟨1, 0, 299700000000000000000, 300000000000000000000000000000000000000⟩]⟩

/-- Division-by-zero counterexample, order 0: sells 1 of the fee token 0. -/
def c10x : Order := ⟨0, 0, 1, 0, 1, 1⟩

/-- Division-by-zero counterexample, order 1: sells 5 of token 1. -/
def c10y : Order := ⟨1, 0, 0, 1, 5, 5⟩

/-- Balances sufficient for both division-by-zero counterexample orders. -/
def c10state : AccountState := balances2 0 0 1 1 1 5

/-- Scenario S1 of the spec, order 0 (owner 0x…01): sell 52 base units of
    token 0 for 4 base units of token 1. -/
def s1x : Order := ⟨1, 0, 1, 0, 4000000000000000000, 52000000000000000000⟩

/-- Scenario S1 of the spec, order 1 (owner 0x…00): sell 15 base units of
    token 1 for 180 base units of token 0. -/
def s1y : Order := ⟨0, 0, 0, 1, 180000000000000000000, 15000000000000000000⟩

/-- Balances sufficient for both S1 orders. -/
def s1state : AccountState :=
  balances2 1 0 52000000000000000000 0 1 15000000000000000000

/-- The stablex contract example of the source's tests: sell 20000 of fee
    token 0 for 9990 of token 1. -/
def sxA : Order := ⟨0, 0, 1, 0, 9990, 20000⟩

/-- The stablex contract example, order 1: sell 9990 of token 1 for 19960 of
    fee token 0. -/
def sxB : Order := ⟨0, 1, 0, 1, 19960, 9990⟩

/-- Balances sufficient for both stablex example orders. -/
def sxState : AccountState := balances2 0 0 20000 0 1 9990

/-- The solution of the stablex contract example (as asserted by the source's
    test test_stablex_contract_example). -/
def sxSol : Solution :=
  ⟨[(0, 1000000000000000000), (1, 2000000000000000000)],
   [⟨0, 0, 9990, 20000⟩, ⟨0, 1, 19961, 9990⟩]⟩

/-- Classification counterexample, order 0: buys 1000 of the fee token 1
    paying 100 of token 0. -/
def c5x : Order := ⟨0, 0, 1, 0, 1000, 100⟩

/-- Classification counterexample, order 1: sells 1000 of the fee token 1 for
    100 of token 0. -/
def c5y : Order := ⟨1, 1, 0, 1, 100, 1000⟩

/-- Balances sufficient for both classification counterexample orders. -/
def c5state : AccountState := balances2 0 0 100 1 1 1000

/-- The fee of the classification counterexample: token 1, ratio 0.001. -/
def c5fee : Fee := ⟨1, 1000⟩

/-- c5x after fee buffering: its buy amount 1000 grows to ceil(1000000/999). -/
def c5xb : Order := ⟨0, 0, 1, 0, 1002, 100⟩

/-- c5y after fee buffering: its sell amount 1000 shrinks to 999. -/
def c5yb : Order := ⟨1, 1, 0, 1, 100, 999⟩

/-- Fee-buffer overflow counterexample: an order whose buy amount is
    u128::MAX, bought token equal to the fee token. -/
def c6order : Order := ⟨7, 1, 4, 5, U128_MOD - 1, 6⟩

/-- Zero-amount counterexample for the price-overlap characterization. -/
def c7x : Order := ⟨0, 0, 1, 2, 0, 0⟩

/-- Zero-amount counterexample for the price-overlap characterization,
    second order. -/
def c7y : Order := ⟨1, 0, 2, 1, 0, 1⟩

/-
  Theorems.
-/

/-- Claim C1: refuted on the code.  With the production fee (token 0, ratio
    0.001) and the matchable pair (c1x, c1y), find_prices returns a solution
    whose first executed order belongs to input order c1x (account 0, id 0) but
    sells 300300300300300300300 although c1x.sell_amount is only 1000, and
    violates c1x's limit price: exec_sell * buy_amount > exec_buy * sell_amount.
    (The normalized price of token 1 is rounded up to 1 from a tiny ratio,
    inflating the recomputed executed sell amount far beyond the order.) -/
theorem c1_oversell_violation :
    find_prices [c1x, c1y] c1state (some prodFee) = some c1sol ∧
    c1sol.executed_orders.head? =
      some ⟨0, 0, 300000000000000000000000000000000000000, 300300300300300300300⟩ ∧
    c1x.account_id = 0 ∧ c1x.id = 0 ∧
    c1x.sell_amount < 300300300300300300300 ∧
    300000000000000000000000000000000000000 * c1x.sell_amount <
      300300300300300300300 * c1x.buy_amount := by
  decide

/-- Claim C10: refuted on the code.  With the production fee and the matchable
    pair (c10x, c10y) — both with sufficient funds — the fee buffer floors
    c10x's sell amount 1 to 0, the price of token 1 normalizes to 0, the guard
    only checks the fee-token price, and the round-trip check inside
    executed_buy_amount divides by the zero sell price: the Rust code panics
    (modelled by none) instead of returning Ok. -/
theorem c10_division_by_zero_panic :
    find_first_match [c10x, c10y] c10state (some prodFee) =
      some ⟨.lhsFullyFilled, c10x, c10y⟩ ∧
    find_prices [c10x, c10y] c10state (some prodFee) = none := by
  decide

/-- Claim C7, counterexample: with both amounts of c7x zero and c7y selling a
    positive amount of nothing the claim's product inequality
    x.buy * y.buy ≤ x.sell * y.sell holds (0 ≤ 0), yet have_price_overlap is
    false because the code additionally requires both sell amounts to be
    positive. -/
theorem c7_zero_amount_counterexample :
    have_price_overlap c7x c7y = false ∧
    c7x.buy_amount * c7y.buy_amount ≤ c7x.sell_amount * c7y.sell_amount := by
  decide

/-- Claim C7, amended: the price-overlap test holds iff both sell amounts are
    positive and x.buy_amount * y.buy_amount ≤ x.sell_amount * y.sell_amount
    (the two products exact). -/
theorem c7_price_overlap_characterization (x y : Order) :
    have_price_overlap x y = true ↔
      0 < x.sell_amount ∧ 0 < y.sell_amount ∧
        x.buy_amount * y.buy_amount ≤ x.sell_amount * y.sell_amount := by
  simp only [have_price_overlap, decide_eq_true_eq]
  rw [Nat.mul_comm y.sell_amount x.sell_amount]

/-- Claim C6, counterexample: for an order buying the fee token with buy
    amount u128::MAX, the u128 product buy_amount * 1000 wraps modulo 2^128
    before the ceiling division, so the buffered amount differs from the
    claim's exact ceil(buy_amount * 1000 / 999). -/
theorem c6_overflow_counterexample :
    order_with_buffer_for_fee c6order (some ⟨4, 1000⟩) ≠
      some { c6order with buy_amount := ceiled_div (c6order.buy_amount * 1000) 999 } := by
  decide

/-- Claim C6, amended: with fee denominator 1000, the buffered order equals the
    input order except that, when the fee token is the buy token and
    buy_amount * 1000 fits in u128, buy_amount becomes
    ceil(buy_amount * 1000 / 999); otherwise when the fee token is the sell
    token and sell_amount * 999 fits in u128, sell_amount becomes
    floor(sell_amount * 999 / 1000); an order not touching the fee token is
    returned unchanged.  Beyond those bounds the u128 products wrap modulo
    2^128. -/
theorem c6_fee_buffer_formulas (o : Order) (f : Fee)
    (hd : f.fee_denominator = 1000) :
    (f.token = o.buy_token → o.buy_amount * 1000 < U128_MOD →
      order_with_buffer_for_fee o (some f) =
        some { o with buy_amount := ceiled_div (o.buy_amount * 1000) 999 }) ∧
    (f.token ≠ o.buy_token → f.token = o.sell_token →
      o.sell_amount * 999 < U128_MOD →
      order_with_buffer_for_fee o (some f) =
        some { o with sell_amount := o.sell_amount * 999 / 1000 }) ∧
    (f.token ≠ o.buy_token → f.token ≠ o.sell_token →
      order_with_buffer_for_fee o (some f) = some o) := by
  have h999 : u128_sub_one 1000 = 999 := by decide
  refine ⟨fun hb hlt => ?_, fun hb hs hlt => ?_, fun hb hs => ?_⟩
  · simp only [order_with_buffer_for_fee, hd, h999]
    rw [if_pos hb, Nat.mod_eq_of_lt hlt]
  · simp only [order_with_buffer_for_fee, hd, h999]
    rw [if_neg hb, if_pos hs, if_neg (by norm_num : (1000 : Nat) ≠ 0),
      Nat.mod_eq_of_lt hlt]
  · simp only [order_with_buffer_for_fee, hd, h999]
    rw [if_neg hb, if_neg hs]

/-- Witness for the fee-buffer formulas at a concrete order and fee. -/
theorem c6_fee_buffer_formulas_witness :
    order_with_buffer_for_fee ⟨0, 0, 2, 3, 999, 500⟩ (some ⟨2, 1000⟩) =
      some { (⟨0, 0, 2, 3, 999, 500⟩ : Order) with
               buy_amount := ceiled_div (999 * 1000) 999 } :=
  (c6_fee_buffer_formulas ⟨0, 0, 2, 3, 999, 500⟩ ⟨2, 1000⟩ rfl).1 rfl (by decide)

/-- Claim C3, counterexample: with fee = None on scenario S1 the solver
    returns a non-trivial solution whose price for token 0 is 4 * 10^18, not
    10^18: without a fee no normalization happens and token 0's price is not
    pinned. -/
theorem c3_no_fee_counterexample :
    find_prices [s1x, s1y] s1state none ≠ some Solution.trivial ∧
    (find_prices [s1x, s1y] s1state none).isSome = true ∧
    (find_prices [s1x, s1y] s1state none).bind (fun sol => price_get sol.prices 0) =
      some (4 * BASE_UNIT) ∧
    4 * BASE_UNIT ≠ BASE_PRICE := by
  decide

/-- Claim C5, counterexample: the pair (c5x, c5y) is matched and classified
    LhsFullyFilled on the unbuffered amounts (1000 ≤ 1000 and 100 ≤ 100), but
    on the fee-buffered amounts (c5xb, c5yb) the claim's classification gives
    BothFullyFilled (1002 > 999 yet not both strict), and the step-3 table
    outputs for the two cases differ — so classification is not computed over
    the fee-buffered amounts. -/
theorem c5_buffered_classification_counterexample :
    find_first_match [c5x, c5y] c5state (some c5fee) =
      some ⟨.lhsFullyFilled, c5x, c5y⟩ ∧
    order_with_buffer_for_fee c5x (some c5fee) = some c5xb ∧
    order_with_buffer_for_fee c5y (some c5fee) = some c5yb ∧
    claim_c5_classify c5xb c5yb = .bothFullyFilled ∧
    create_executed_orders ⟨.lhsFullyFilled, c5x, c5y⟩ (some c5fee) =
      some (exec_table .lhsFullyFilled c5xb c5yb) ∧
    exec_table .bothFullyFilled c5xb c5yb ≠ exec_table .lhsFullyFilled c5xb c5yb := by
  decide

/-- Invariant of the updater loop: while the past-events future is pending the
    ready flag is unset; once it is consumed the flag is set and every past
    event has been applied to the orderbook (contiguously, after the live
    events that preceded the completion). -/
theorem updater_invariant (past : List Nat) (s : UpdaterState)
    (h : UpdaterReachable (updater_init past) s) :
    (s.past_pending = some past ∧ s.ready = false) ∨
    (s.past_pending = none ∧ s.ready = true ∧
      ∃ l1 l2, s.applied = l1 ++ past ++ l2) := by
  induction h with
  | refl => exact Or.inl ⟨rfl, rfl⟩
  | tail _ st ih =>
    cases st with
    | live e =>
      rcases ih with ⟨h1, h2⟩ | ⟨h1, h2, l1, l2, h3⟩
      · exact Or.inl ⟨h1, h2⟩
      · exact Or.inr ⟨h1, h2, l1, l2 ++ [e], by simp [h3]⟩
    | past evs hp =>
      rcases ih with ⟨h1, h2⟩ | ⟨h1, h2, l1, l2, h3⟩
      · obtain rfl : evs = past := by
          rw [h1] at hp
          exact (Option.some.inj hp).symm
        exact Or.inr ⟨rfl, rfl, _, [], (List.append_nil _).symm⟩
      · rw [h1] at hp
        exact absurd hp (by simp)

/-- Claim C9: a get_auction_data call while the ready flag is unset returns
    the not-ready error, uniformly in the orderbook contents (so without
    reading them); in every reachable state with the flag set all past events
    have been applied to the orderbook; and with the flag set the call returns
    the inner orderbook's get_auction_data result. -/
theorem c9_updating_orderbook_readiness :
    (∀ (α : Type) (inner : List Nat → Nat → α) (s : UpdaterState) (b : Nat),
        s.ready = false → updating_get_auction_data inner s b = .notReady) ∧
    (∀ (past : List Nat) (s : UpdaterState),
        UpdaterReachable (updater_init past) s → s.ready = true →
        ∃ l1 l2, s.applied = l1 ++ past ++ l2) ∧
    (∀ (α : Type) (inner : List Nat → Nat → α) (s : UpdaterState) (b : Nat),
        s.ready = true →
        updating_get_auction_data inner s b = .ok (inner s.applied b)) := by
  refine ⟨fun α inner s b hr => ?_, fun past s hreach hr => ?_,
    fun α inner s b hr => ?_⟩
  · simp [updating_get_auction_data, hr]
  · rcases updater_invariant past s hreach with ⟨_, h2⟩ | ⟨_, _, l1, l2, h3⟩
    · rw [hr] at h2; cases h2
    · exact ⟨l1, l2, h3⟩
  · simp [updating_get_auction_data, hr]

/-- Witness for the readiness protocol: the state reached from past events [3]
    by completing the past-events future answers queries with the inner
    result, the initial state answers not-ready, and the reached state
    contains event 3. -/
theorem c9_updating_orderbook_readiness_witness :
    updating_get_auction_data (fun l _ => l.length) (updater_init [3]) 0 =
      .notReady ∧
    (∃ l1 l2, ([3] : List Nat) = l1 ++ [3] ++ l2) ∧
    updating_get_auction_data (fun l _ => l.length)
      (⟨[3], true, none⟩ : UpdaterState) 0 = .ok 1 :=
  ⟨c9_updating_orderbook_readiness.1 Nat (fun l _ => l.length)
      (updater_init [3]) 0 rfl,
   c9_updating_orderbook_readiness.2.1 [3] ⟨[3], true, none⟩
      (Relation.ReflTransGen.single
        (UpdaterStep.past (updater_init [3]) [3] rfl)) rfl,
   c9_updating_orderbook_readiness.2.2 Nat (fun l _ => l.length)
      ⟨[3], true, none⟩ 0 rfl⟩

/-- match_compare succeeds exactly on the claim C4 conditions, and then
    classifies the pair by the three amount comparisons on the unbuffered
    amounts. -/
theorem match_compare_eq (x y : Order) (state : AccountState) (fee : Option Fee) :
    match_compare x y state fee =
      if c4_matchable state fee x y then some (classify_pair x y) else none := by
  by_cases hc : c4_matchable state fee x y = true
  · rw [if_pos hc]
    simp only [c4_matchable, Bool.and_eq_true, beq_iff_eq, Bool.or_eq_true] at hc
    obtain ⟨⟨⟨⟨⟨h1, h2⟩, hbt⟩, hst⟩, hov⟩, hfee⟩ := hc
    have hattr : attracts x y fee = true := by
      cases fee with
      | none => simp [attracts, opposite_tokens, hbt, hst, hov]
      | some f =>
        simp only [Bool.or_eq_true, beq_iff_eq] at hfee
        simp only [attracts]
        rw [if_neg (not_not_intro (Or.symm hfee))]
        simp [opposite_tokens, hbt, hst, hov]
    have hfee2 : (fee.map (trades_fee_token x)).getD true = true := by
      cases fee with
      | none => rfl
      | some f =>
        simp only [Bool.or_eq_true, beq_iff_eq] at hfee
        simp only [trades_fee_token, Option.map, Option.getD, decide_eq_true_eq]
        exact hfee
    unfold match_compare
    rw [if_neg (by simp [h1, h2, hattr, hfee2])]
    unfold classify_pair
    split_ifs <;> rfl
  · rw [if_neg hc]
    unfold match_compare
    apply if_pos
    by_contra hcon
    push_neg at hcon
    obtain ⟨h1, h2, h3, h4⟩ := hcon
    apply hc
    cases fee with
    | none =>
      simp only [attracts, Bool.and_eq_true, opposite_tokens, decide_eq_true_eq] at h3
      obtain ⟨⟨hbt, hst⟩, hov⟩ := h3
      simp [c4_matchable, h1, h2, hbt, hst, hov]
    | some f =>
      by_cases hf : x.sell_token = f.token ∨ x.buy_token = f.token
      · simp only [attracts] at h3
        rw [if_neg (not_not_intro hf)] at h3
        simp only [Bool.and_eq_true, opposite_tokens, decide_eq_true_eq] at h3
        obtain ⟨⟨hbt, hst⟩, hov⟩ := h3
        simp only [c4_matchable, Bool.and_eq_true, beq_iff_eq, Bool.or_eq_true]
        exact ⟨⟨⟨⟨⟨h1, h2⟩, hbt⟩, hst⟩, hov⟩, Or.symm hf⟩
      · simp only [attracts] at h3
        rw [if_pos hf] at h3
        cases h3

/-- The inner scan of find_first_match returns the first y matching x,
    together with x and the classification of the pair. -/
theorem find_first_match_from_eq (x : Order) (state : AccountState)
    (fee : Option Fee) (l : List Order) :
    find_first_match_from x state fee l =
      (first_from (c4_matchable state fee) x l).map
        (fun y => ⟨classify_pair x y, x, y⟩) := by
  induction l with
  | nil => rfl
  | cons y rest ih =>
    simp only [find_first_match_from, first_from, match_compare_eq]
    by_cases h : c4_matchable state fee x y = true
    · simp [h]
    · simp only [Bool.not_eq_true] at h
      simp [h, ih]

/-- find_first_match returns the first ordered pair satisfying the claim C4
    conditions, with the pair's classification. -/
theorem find_first_match_eq (orders : List Order) (state : AccountState)
    (fee : Option Fee) :
    find_first_match orders state fee =
      (first_matching_pair (c4_matchable state fee) orders).map
        (fun p => ⟨classify_pair p.1 p.2, p.1, p.2⟩) := by
  induction orders with
  | nil => rfl
  | cons x rest ih =>
    simp only [find_first_match, first_matching_pair, find_first_match_from_eq]
    cases h : first_from (c4_matchable state fee) x rest with
    | some y => simp
    | none => simp [ih]

/-- find_prices is the trivial solution when no pair matches, else the
    execution of the first match. -/
theorem find_prices_eq (orders : List Order) (state : AccountState)
    (fee : Option Fee) :
    find_prices orders state fee =
      match find_first_match orders state fee with
      | some m => execute_match m fee
      | none => some Solution.trivial := by
  cases h : find_first_match orders state fee with
  | some m => simp only [find_prices, execute_match, h]
  | none => simp [find_prices, h]

/-- Claim C4: find_prices executes exactly the first ordered pair (x, y), x
    preceding y in the orders slice, such that both orders have sufficient
    seller funds, the tokens are opposite, the prices overlap and — when a fee
    is configured — x touches the fee token; when no such pair exists it
    returns the trivial solution. -/
theorem c4_first_match_selection (orders : List Order) (state : AccountState)
    (fee : Option Fee) :
    find_prices orders state fee =
      match first_matching_pair (c4_matchable state fee) orders with
      | some p => execute_match ⟨classify_pair p.1 p.2, p.1, p.2⟩ fee
      | none => some Solution.trivial := by
  rw [find_prices_eq, find_first_match_eq]
  cases first_matching_pair (c4_matchable state fee) orders with
  | some p => rfl
  | none => rfl

/-- The inner scan only returns orders satisfying the predicate. -/
theorem first_from_sound (p : Order → Order → Bool) (x : Order) :
    ∀ (l : List Order) (y : Order), first_from p x l = some y → p x y = true := by
  intro l
  induction l with
  | nil => intro y h; cases h
  | cons z rest ih =>
    intro y h
    unfold first_from at h
    by_cases hp : p x z = true
    · rw [if_pos hp] at h
      obtain rfl := Option.some.inj h
      exact hp
    · rw [if_neg hp] at h
      exact ih y h

/-- The first matching pair satisfies the predicate. -/
theorem first_matching_pair_sound (p : Order → Order → Bool) :
    ∀ (l : List Order) (x y : Order),
      first_matching_pair p l = some (x, y) → p x y = true := by
  intro l
  induction l with
  | nil => intro x y h; cases h
  | cons z rest ih =>
    intro x y h
    unfold first_matching_pair at h
    cases hf : first_from p z rest with
    | some w =>
      rw [hf] at h
      injection Option.some.inj h with h1 h2
      subst h1; subst h2
      exact first_from_sound p z rest w hf
    | none =>
      rw [hf] at h
      exact ih x y h

/-- A successful find_first_match satisfies the claim C4 conditions, and its
    pair type is the classification of the matched pair. -/
theorem find_first_match_some (orders : List Order) (state : AccountState)
    (fee : Option Fee) (m : MatchPair)
    (h : find_first_match orders state fee = some m) :
    c4_matchable state fee m.fst m.snd = true ∧
    m.order_pair_type = classify_pair m.fst m.snd := by
  rw [find_first_match_eq] at h
  cases hf : first_matching_pair (c4_matchable state fee) orders with
  | none => rw [hf] at h; cases h
  | some p =>
    rw [hf, Option.map_some'] at h
    obtain rfl := Option.some.inj h
    exact ⟨first_matching_pair_sound _ orders p.1 p.2 hf, rfl⟩

/-- The token pairing and fee-touch facts of a successful match. -/
theorem match_props (orders : List Order) (state : AccountState)
    (fee : Option Fee) (m : MatchPair)
    (h : find_first_match orders state fee = some m) :
    m.fst.buy_token = m.snd.sell_token ∧ m.fst.sell_token = m.snd.buy_token ∧
    (∀ f, fee = some f →
      m.fst.sell_token = f.token ∨ m.fst.buy_token = f.token) := by
  obtain ⟨hc, -⟩ := find_first_match_some orders state fee m h
  simp only [c4_matchable, Bool.and_eq_true, beq_iff_eq] at hc
  obtain ⟨⟨⟨⟨⟨-, -⟩, hbt⟩, hst⟩, -⟩, hfee⟩ := hc
  refine ⟨hbt, hst, fun f hf => ?_⟩
  subst hf
  simp only [Bool.or_eq_true, beq_iff_eq] at hfee
  exact Or.symm hfee

/-- Fee buffering changes only the amounts, never the identity or tokens of
    the order. -/
theorem order_with_buffer_preserves (o : Order) (fee : Option Fee) (b : Order)
    (h : order_with_buffer_for_fee o fee = some b) :
    b.account_id = o.account_id ∧ b.id = o.id ∧
    b.buy_token = o.buy_token ∧ b.sell_token = o.sell_token := by
  cases fee with
  | none =>
    obtain rfl := Option.some.inj h
    exact ⟨rfl, rfl, rfl, rfl⟩
  | some f =>
    simp only [order_with_buffer_for_fee] at h
    by_cases hb : f.token = o.buy_token
    · rw [if_pos hb] at h
      obtain rfl := Option.some.inj h
      exact ⟨rfl, rfl, rfl, rfl⟩
    · rw [if_neg hb] at h
      by_cases hs : f.token = o.sell_token
      · rw [if_pos hs] at h
        by_cases hd : f.fee_denominator = 0
        · rw [if_pos hd] at h; cases h
        · rw [if_neg hd] at h
          obtain rfl := Option.some.inj h
          exact ⟨rfl, rfl, rfl, rfl⟩
      · rw [if_neg hs] at h
        obtain rfl := Option.some.inj h
        exact ⟨rfl, rfl, rfl, rfl⟩

/-- The executed order pair of the step-3 table is symmetric: the first
    executed order buys what the second sells and vice versa, and each carries
    its order's identity. -/
theorem exec_table_pair (t : OrderPairType) (x y : Order) :
    (exec_table t x y).1.1.buy_amount = (exec_table t x y).1.2.sell_amount ∧
    (exec_table t x y).1.1.sell_amount = (exec_table t x y).1.2.buy_amount ∧
    (exec_table t x y).1.1.account_id = x.account_id ∧
    (exec_table t x y).1.1.order_id = x.id ∧
    (exec_table t x y).1.2.account_id = y.account_id ∧
    (exec_table t x y).1.2.order_id = y.id := by
  cases t <;> simp [exec_table, create_executed_order]

/-- Unfolding of a successful create_executed_orders into the buffered pair
    and the table. -/
theorem create_executed_orders_some (m : MatchPair) (fee : Option Fee)
    (r : (ExecutedOrder × ExecutedOrder) × PriceMap)
    (h : create_executed_orders m fee = some r) :
    ∃ bx by2, order_with_buffer_for_fee m.fst fee = some bx ∧
      order_with_buffer_for_fee m.snd fee = some by2 ∧
      r = exec_table m.order_pair_type bx by2 := by
  unfold create_executed_orders at h
  cases hbx : order_with_buffer_for_fee m.fst fee with
  | none => rw [hbx] at h; cases h
  | some bx =>
    cases hby : order_with_buffer_for_fee m.snd fee with
    | none => rw [hbx, hby] at h; cases h
    | some by2 =>
      rw [hbx, hby] at h
      exact ⟨bx, by2, rfl, rfl, (Option.some.inj h).symm⟩

/-- Claim C5, amended: classification is computed by match_compare over the
    original (unbuffered) amounts — LhsFull iff x.buy ≤ y.sell and
    x.sell ≤ y.buy, RhsFull iff not LhsFull and x.buy ≥ y.sell and
    x.sell ≥ y.buy, BothFull otherwise — while the step-3 prices and executed
    amounts are computed from that classification over the fee-buffered
    amounts. -/
theorem c5_classification_on_original_amounts (orders : List Order)
    (state : AccountState) (fee : Option Fee) (m : MatchPair)
    (h : find_first_match orders state fee = some m) :
    m.order_pair_type = classify_pair m.fst m.snd ∧
    ∀ bx by2, order_with_buffer_for_fee m.fst fee = some bx →
      order_with_buffer_for_fee m.snd fee = some by2 →
      create_executed_orders m fee =
        some (exec_table (classify_pair m.fst m.snd) bx by2) := by
  obtain ⟨-, hcl⟩ := find_first_match_some orders state fee m h
  refine ⟨hcl, fun bx by2 hbx hby => ?_⟩
  unfold create_executed_orders
  rw [hbx, hby, hcl]

/-- Witness for the amended claim C5 at scenario S1 (no fee, LhsFullyFilled). -/
theorem c5_classification_on_original_amounts_witness :
    (⟨.lhsFullyFilled, s1x, s1y⟩ : MatchPair).order_pair_type =
      classify_pair s1x s1y ∧
    create_executed_orders ⟨.lhsFullyFilled, s1x, s1y⟩ none =
      some (exec_table (classify_pair s1x s1y) s1x s1y) :=
  ⟨(c5_classification_on_original_amounts [s1x, s1y] s1state none
      ⟨.lhsFullyFilled, s1x, s1y⟩ (by decide)).1,
   (c5_classification_on_original_amounts [s1x, s1y] s1state none
      ⟨.lhsFullyFilled, s1x, s1y⟩ (by decide)).2 s1x s1y rfl rfl⟩

/-- A fee application step that succeeds rewrites exactly one amount: the
    executed sell amount of an order selling the fee token, the executed buy
    amount of any other order; identity fields are preserved. -/
theorem apply_fee_cases (f : Fee) (p : PriceMap) (o : Order)
    (e e2 : ExecutedOrder)
    (h : apply_fee_to_executed_order f p o e = some (some e2)) :
    e2.account_id = e.account_id ∧ e2.order_id = e.order_id ∧
    ((o.sell_token = f.token ∧ e2.buy_amount = e.buy_amount) ∨
     (o.sell_token ≠ f.token ∧ e2.sell_amount = e.sell_amount)) := by
  unfold apply_fee_to_executed_order at h
  split at h
  · rename_i hs
    split at h
    · cases h
    · split at h
      · cases h
      · obtain rfl := Option.some.inj (Option.some.inj h)
        exact ⟨rfl, rfl, Or.inl ⟨hs, rfl⟩⟩
  · rename_i hs
    split at h
    · cases h
    · split at h
      · cases h
      · simp at h
      · obtain rfl := Option.some.inj (Option.some.inj h)
        exact ⟨rfl, rfl, Or.inr ⟨hs, rfl⟩⟩

/-- A create_solution_with_fee result is either the trivial solution or the
    normalized prices together with the two fee-adjusted executed orders. -/
theorem create_solution_with_fee_cases (ox oy : Order) (f : Fee)
    (e0 e1 : ExecutedOrder) (prices : PriceMap) (sol : Solution)
    (h : create_solution_with_fee ox oy f e0 e1 prices = some sol) :
    sol = Solution.trivial ∨
    ∃ nprices e0f e1f,
      (price_get prices f.token).getD 0 ≠ 0 ∧
      normalize_prices prices ((price_get prices f.token).getD 0) =
        some nprices ∧
      apply_fee_to_executed_order f nprices ox e0 = some (some e0f) ∧
      apply_fee_to_executed_order f nprices oy e1 = some (some e1f) ∧
      sol = ⟨nprices, [e0f, e1f]⟩ := by
  simp only [create_solution_with_fee] at h
  split at h
  · exact Or.inl (Option.some.inj h).symm
  · rename_i hpre
    split at h
    · exact Or.inl (Option.some.inj h).symm
    · rename_i nprices hn
      split at h
      · cases h
      · exact Or.inl (Option.some.inj h).symm
      · rename_i e0f ha0
        split at h
        · cases h
        · exact Or.inl (Option.some.inj h).symm
        · rename_i e1f ha1
          exact Or.inr ⟨nprices, e0f, e1f, hpre, hn, ha0, ha1,
            (Option.some.inj h).symm⟩

/-- Claim C2: every solution of find_prices is either trivial or consists of
    the two executed orders of the first match and conserves every token other
    than the fee token: the executed buy amounts into the token equal the
    executed sell amounts out of it (without a fee this holds for every
    token). -/
theorem c2_token_conservation (orders : List Order) (state : AccountState)
    (fee : Option Fee) (sol : Solution)
    (h : find_prices orders state fee = some sol) :
    sol = Solution.trivial ∨
    ∃ m e0 e1, find_first_match orders state fee = some m ∧
      sol.executed_orders = [e0, e1] ∧
      ∀ t : Nat, (∀ f, fee = some f → t ≠ f.token) →
        token_buy_total [(m.fst, e0), (m.snd, e1)] t =
        token_sell_total [(m.fst, e0), (m.snd, e1)] t := by
  rw [find_prices_eq] at h
  cases hm : find_first_match orders state fee with
  | none => rw [hm] at h; exact Or.inl (Option.some.inj h).symm
  | some m =>
    rw [hm] at h
    have h2 : execute_match m fee = some sol := h
    clear h
    unfold execute_match at h2
    split at h2
    · cases h2
    · rename_i e0 e1 prices heq
      obtain ⟨bx, by2, hbx, hby, hr⟩ := create_executed_orders_some m fee _ heq
      have he0 : e0 = (exec_table m.order_pair_type bx by2).1.1 := by rw [← hr]
      have he1 : e1 = (exec_table m.order_pair_type bx by2).1.2 := by rw [← hr]
      obtain ⟨hpair1, hpair2, -, -, -, -⟩ := exec_table_pair m.order_pair_type bx by2
      rw [← he0, ← he1] at hpair1 hpair2
      obtain ⟨hbt, hst, hfeet⟩ := match_props orders state fee m hm
      cases fee with
      | none =>
        obtain rfl : (⟨prices, [e0, e1]⟩ : Solution) = sol := Option.some.inj h2
        refine Or.inr ⟨m, e0, e1, rfl, rfl, fun t _ => ?_⟩
        simp only [token_buy_total, token_sell_total, List.map, List.sum_cons,
          List.sum_nil, Nat.add_zero]
        rw [← hbt, ← hst, hpair2, ← hpair1]
        exact Nat.add_comm _ _
      | some f =>
        rcases create_solution_with_fee_cases m.fst m.snd f e0 e1 prices sol h2 with
          htriv | ⟨nprices, e0f, e1f, -, -, ha0, ha1, hsol⟩
        · exact Or.inl htriv
        · obtain ⟨-, -, hd0⟩ := apply_fee_cases f nprices m.fst e0 e0f ha0
          obtain ⟨-, -, hd1⟩ := apply_fee_cases f nprices m.snd e1 e1f ha1
          refine Or.inr ⟨m, e0f, e1f, rfl, by rw [hsol], fun t ht => ?_⟩
          have htf : t ≠ f.token := ht f rfl
          simp only [token_buy_total, token_sell_total, List.map, List.sum_cons,
            List.sum_nil, Nat.add_zero]
          by_cases hxs : m.fst.sell_token = f.token
          · by_cases hxb : m.fst.buy_token = f.token
            · -- degenerate: both tokens are the fee token, all summands vanish
              have h1 : ¬(m.fst.buy_token = t) := fun hh => htf (hh ▸ hxb)
              have h2 : ¬(m.snd.buy_token = t) := fun hh => htf (hh ▸ hst ▸ hxs)
              have h3 : ¬(m.fst.sell_token = t) := fun hh => htf (hh ▸ hxs)
              have h4 : ¬(m.snd.sell_token = t) := fun hh => htf (hh ▸ hbt ▸ hxb)
              rw [if_neg h1, if_neg h2, if_neg h3, if_neg h4]
            · -- the first order sells the fee token
              have hb0 : e0f.buy_amount = e0.buy_amount := by
                rcases hd0 with ⟨-, hh⟩ | ⟨hne, -⟩
                · exact hh
                · exact absurd hxs hne
              have hs1 : e1f.sell_amount = e1.sell_amount := by
                rcases hd1 with ⟨hh, -⟩ | ⟨-, hh⟩
                · exact absurd (hbt ▸ hh) hxb
                · exact hh
              have h2 : ¬(m.snd.buy_token = t) := fun hh => htf (hh ▸ hst ▸ hxs)
              have h3 : ¬(m.fst.sell_token = t) := fun hh => htf (hh ▸ hxs)
              rw [if_neg h2, if_neg h3, ← hbt, hb0, hpair1, ← hs1, Nat.add_zero,
                Nat.zero_add]
          · by_cases hxb : m.fst.buy_token = f.token
            · -- the second order sells the fee token
              have hs0 : e0f.sell_amount = e0.sell_amount := by
                rcases hd0 with ⟨hh, -⟩ | ⟨-, hh⟩
                · exact absurd hh hxs
                · exact hh
              have hb1 : e1f.buy_amount = e1.buy_amount := by
                rcases hd1 with ⟨-, hh⟩ | ⟨hne, -⟩
                · exact hh
                · exact absurd (hbt ▸ hxb) hne
              have h1 : ¬(m.fst.buy_token = t) := fun hh => htf (hh ▸ hxb)
              have h4 : ¬(m.snd.sell_token = t) := fun hh => htf (hh ▸ hbt ▸ hxb)
              rw [if_neg h1, if_neg h4, ← hst, hb1, ← hpair2, ← hs0, Nat.zero_add,
                Nat.add_zero]
            · rcases hfeet f rfl with hh | hh
              · exact absurd hh hxs
              · exact absurd hh hxb

/-- Claim C2, witness at the stablex contract example. -/
theorem c2_token_conservation_witness :
    sxSol = Solution.trivial ∨
    ∃ m e0 e1, find_first_match [sxA, sxB] sxState (some prodFee) = some m ∧
      sxSol.executed_orders = [e0, e1] ∧
      ∀ t : Nat, (∀ f, (some prodFee : Option Fee) = some f → t ≠ f.token) →
        token_buy_total [(m.fst, e0), (m.snd, e1)] t =
        token_sell_total [(m.fst, e0), (m.snd, e1)] t :=
  c2_token_conservation [sxA, sxB] sxState (some prodFee) sxSol (by decide)

/-- Normalization applies normalize_price pointwise to the stored prices. -/
theorem normalize_prices_get (ps : PriceMap) (pre : Nat) (nps : PriceMap)
    (h : normalize_prices ps pre = some nps) (k : Nat) :
    price_get nps k = (price_get ps k).bind (fun v => normalize_price v pre) := by
  induction ps generalizing nps with
  | nil =>
    obtain rfl := (Option.some.inj h).symm
    rfl
  | cons kv rest ih =>
    obtain ⟨k0, v0⟩ := kv
    simp only [normalize_prices] at h
    split at h
    · rename_i v2 rest2 hn hr
      obtain rfl := (Option.some.inj h).symm
      simp only [price_get]
      by_cases hk : k0 = k
      · rw [if_pos hk, if_pos hk]
        simp [hn]
      · rw [if_neg hk, if_neg hk]
        exact ih rest2 hr
    · cases h

/-- Claim C3, amended: when a fee is configured, every solution of find_prices
    is either trivial or prices the fee token at BASE_PRICE = 10^18 (so token 0
    is priced 10^18 exactly when fee.token = 0); with fee = None no price is
    pinned. -/
theorem c3_fee_token_price_pinned (orders : List Order) (state : AccountState)
    (f : Fee) (sol : Solution)
    (h : find_prices orders state (some f) = some sol) :
    sol = Solution.trivial ∨ price_get sol.prices f.token = some BASE_PRICE := by
  rw [find_prices_eq] at h
  cases hm : find_first_match orders state (some f) with
  | none => rw [hm] at h; exact Or.inl (Option.some.inj h).symm
  | some m =>
    rw [hm] at h
    have h2 : execute_match m (some f) = some sol := h
    clear h
    unfold execute_match at h2
    split at h2
    · cases h2
    · rename_i e0 e1 prices heq
      rcases create_solution_with_fee_cases m.fst m.snd f e0 e1 prices sol h2 with
        htriv | ⟨nprices, e0f, e1f, hpre, hn, -, -, hsol⟩
      · exact Or.inl htriv
      · right
        rw [hsol]
        cases hp : price_get prices f.token with
        | none => rw [hp] at hpre; simp at hpre
        | some pre =>
          rw [hp] at hpre hn
          simp only [Option.getD_some] at hpre hn
          have hget := normalize_prices_get prices pre nprices hn f.token
          rw [hp] at hget
          rw [hget]
          show normalize_price pre pre = some BASE_PRICE
          have hpos : 0 < pre := Nat.pos_of_ne_zero hpre
          simp [normalize_price, ceiled_div, Nat.mul_mod_right,
            Nat.mul_div_cancel_left _ hpos,
            (by decide : BASE_PRICE < U128_MOD)]

/-- Claim C3, amended-claim witness at the stablex contract example. -/
theorem c3_fee_token_price_pinned_witness :
    sxSol = Solution.trivial ∨
    price_get sxSol.prices prodFee.token = some BASE_PRICE :=
  c3_fee_token_price_pinned [sxA, sxB] sxState prodFee sxSol (by decide)

/-- A successful fee application to an order not selling the fee token leaves
    an executed buy amount whose executed_sell_amount round-trips to the
    executed sell amount, at the stored price of the sell token. -/
theorem apply_fee_roundtrip (f : Fee) (p : PriceMap) (o : Order)
    (e e2 : ExecutedOrder) (hs : ¬ o.sell_token = f.token)
    (h : apply_fee_to_executed_order f p o e = some (some e2)) :
    ∃ ps, price_get p o.sell_token = some ps ∧
      executed_sell_amount f e2.buy_amount BASE_PRICE ps = some e2.sell_amount := by
  unfold apply_fee_to_executed_order at h
  rw [if_neg hs] at h
  split at h
  · cases h
  · rename_i ps hps
    split at h
    · cases h
    · simp at h
    · rename_i eb heb
      obtain rfl := Option.some.inj (Option.some.inj h)
      refine ⟨ps, hps, ?_⟩
      simp only [executed_buy_amount] at heb
      split at heb
      · cases heb
      · split at heb
        · cases heb
        · split at heb
          · cases heb
          · split at heb
            · cases heb
            · split at heb
              · cases heb
              · rename_i rt hrt
                have hres := Option.some.inj heb
                by_cases he : e.sell_amount = rt
                · rw [if_pos he] at hres
                  obtain rfl := Option.some.inj hres
                  rw [hrt, ← he]
                · rw [if_neg he] at hres
                  cases hres

/-- Claim C8: (1) a non-panicking executed_buy_amount returns exactly its
    candidate when executed_sell_amount round-trips it to the given executed
    sell amount, and None otherwise; (2) in every non-trivial fee solution each
    executed order whose sell token is not the fee token satisfies
    exec_sell = executed_sell_amount(fee, exec_buy, BASE_PRICE,
    prices[sell_token]); (3) when the fee application loop receives None for
    one of the orders, create_solution_with_fee returns the trivial
    solution. -/
theorem c8_executed_buy_amount_roundtrip :
    (∀ (f : Fee) (es bp sp : Nat) (res : Option Nat),
      executed_buy_amount f es bp sp = some res →
      res = if executed_sell_amount f (executed_buy_amount_candidate f es bp sp)
                bp sp = some es
            then some (executed_buy_amount_candidate f es bp sp) else none) ∧
    (∀ (orders : List Order) (state : AccountState) (f : Fee) (sol : Solution),
      find_prices orders state (some f) = some sol → sol ≠ Solution.trivial →
      ∃ m e0f e1f, find_first_match orders state (some f) = some m ∧
        sol.executed_orders = [e0f, e1f] ∧
        (¬ m.fst.sell_token = f.token → ∃ ps,
          price_get sol.prices m.fst.sell_token = some ps ∧
          executed_sell_amount f e0f.buy_amount BASE_PRICE ps =
            some e0f.sell_amount) ∧
        (¬ m.snd.sell_token = f.token → ∃ ps,
          price_get sol.prices m.snd.sell_token = some ps ∧
          executed_sell_amount f e1f.buy_amount BASE_PRICE ps =
            some e1f.sell_amount)) ∧
    (∀ (ox oy : Order) (f : Fee) (e0 e1 : ExecutedOrder)
        (prices nprices : PriceMap),
      (price_get prices f.token).getD 0 ≠ 0 →
      normalize_prices prices ((price_get prices f.token).getD 0) =
        some nprices →
      (apply_fee_to_executed_order f nprices ox e0 = some none ∨
       (∃ e0f, apply_fee_to_executed_order f nprices ox e0 = some (some e0f) ∧
         apply_fee_to_executed_order f nprices oy e1 = some none)) →
      create_solution_with_fee ox oy f e0 e1 prices = some Solution.trivial) := by
  refine ⟨?_, ?_, ?_⟩
  · intro f es bp sp res h
    simp only [executed_buy_amount] at h
    split at h
    · cases h
    · split at h
      · cases h
      · split at h
        · cases h
        · split at h
          · cases h
          · split at h
            · cases h
            · rename_i rt hrt
              obtain rfl := (Option.some.inj h).symm
              unfold executed_buy_amount_candidate
              rw [hrt]
              by_cases he : es = rt
              · rw [if_pos he, if_pos (by rw [he])]
              · rw [if_neg he, if_neg (fun hc => he (Option.some.inj hc).symm)]
  · intro orders state f sol h hne
    rw [find_prices_eq] at h
    cases hm : find_first_match orders state (some f) with
    | none =>
      rw [hm] at h
      exact absurd (Option.some.inj h).symm hne
    | some m =>
      rw [hm] at h
      have h2 : execute_match m (some f) = some sol := h
      clear h
      unfold execute_match at h2
      split at h2
      · cases h2
      · rename_i e0 e1 prices heq
        rcases create_solution_with_fee_cases m.fst m.snd f e0 e1 prices sol h2
          with htriv | ⟨nprices, e0f, e1f, hpre, hn, ha0, ha1, hsol⟩
        · exact absurd htriv hne
        · refine ⟨m, e0f, e1f, rfl, by rw [hsol], fun hs => ?_, fun hs => ?_⟩
          · obtain ⟨ps, hps, hrt⟩ :=
              apply_fee_roundtrip f nprices m.fst e0 e0f hs ha0
            exact ⟨ps, by rw [hsol]; exact hps, hrt⟩
          · obtain ⟨ps, hps, hrt⟩ :=
              apply_fee_roundtrip f nprices m.snd e1 e1f hs ha1
            exact ⟨ps, by rw [hsol]; exact hps, hrt⟩
  · intro ox oy f e0 e1 prices nprices hpre hn hd
    have hgoal : create_solution_with_fee ox oy f e0 e1 prices =
        match apply_fee_to_executed_order f nprices ox e0 with
        | none => none
        | some none => some Solution.trivial
        | some (some e0f) =>
          match apply_fee_to_executed_order f nprices oy e1 with
          | none => none
          | some none => some Solution.trivial
          | some (some e1f) => some ⟨nprices, [e0f, e1f]⟩ := by
      simp only [create_solution_with_fee]
      rw [if_neg hpre, hn]
    rw [hgoal]
    rcases hd with ha | ⟨e0f, ha0, ha1⟩
    · rw [ha]
    · rw [ha0, ha1]

/-- Claim C8, witness: the inverse characterization evaluated on the stablex
    example's second order (executed sell 9990 at normalized sell price
    2 * 10^18 buys 19961), the solution round-trip on the full stablex
    example, and a trivial-solution return for a sell amount of 1 at a
    normalized sell price of 1 that no executed buy amount can reach. -/
theorem c8_executed_buy_amount_roundtrip_witness :
    ((some 19961 : Option Nat) =
      if executed_sell_amount prodFee
           (executed_buy_amount_candidate prodFee 9990 BASE_PRICE
             2000000000000000000) BASE_PRICE 2000000000000000000 = some 9990
      then some (executed_buy_amount_candidate prodFee 9990 BASE_PRICE
             2000000000000000000) else none) ∧
    (∃ m e0f e1f,
      find_first_match [sxA, sxB] sxState (some prodFee) = some m ∧
        sxSol.executed_orders = [e0f, e1f] ∧
        (¬ m.fst.sell_token = prodFee.token → ∃ ps,
          price_get sxSol.prices m.fst.sell_token = some ps ∧
          executed_sell_amount prodFee e0f.buy_amount BASE_PRICE ps =
            some e0f.sell_amount) ∧
        (¬ m.snd.sell_token = prodFee.token → ∃ ps,
          price_get sxSol.prices m.snd.sell_token = some ps ∧
          executed_sell_amount prodFee e1f.buy_amount BASE_PRICE ps =
            some e1f.sell_amount)) ∧
    create_solution_with_fee ⟨0, 0, 0, 5, 7, 9⟩ ⟨1, 0, 5, 0, 9, 7⟩ prodFee
      ⟨0, 0, 3, 1⟩ ⟨1, 0, 1, 3⟩ [(0, BASE_PRICE), (5, 1)] =
      some Solution.trivial :=
  ⟨c8_executed_buy_amount_roundtrip.1 prodFee 9990 BASE_PRICE
      2000000000000000000 (some 19961) (by decide),
   c8_executed_buy_amount_roundtrip.2.1 [sxA, sxB] sxState prodFee sxSol
      (by decide) (by decide),
   c8_executed_buy_amount_roundtrip.2.2 ⟨0, 0, 0, 5, 7, 9⟩ ⟨1, 0, 5, 0, 9, 7⟩
      prodFee ⟨0, 0, 3, 1⟩ ⟨1, 0, 1, 3⟩ [(0, BASE_PRICE), (5, 1)]
      [(0, BASE_PRICE), (5, 1)] (by decide) (by decide)
      (Or.inl (by decide))⟩

end DexServices
